import Mathlib

/-!
Verification of the mini HTTP/1.1 file server in src/server.c.

The C code is shallowly embedded over lists of characters: C strings become
`List Char`, the filesystem becomes a function from path to optional file
content, and the per-connection handler becomes a function producing a trace
of events (responses written, connection closed).
-/

/-- C strings are modelled as lists of characters (no NUL terminator). -/
abbrev CStr := List Char

/-- The C `isspace` predicate in the default locale: space, \t, \n, \v, \f, \r.
This is the whitespace set used by the `%s` conversions of `sscanf`. -/
def isWS (c : Char) : Bool :=
  c == ' ' || c == '\t' || c == '\n' || c == '\x0b' || c == '\x0c' || c == '\r'

/-- One `%Ns` conversion of `sscanf` (src/server.c line 49): skip whitespace,
then read at most `width` non-whitespace characters; a conversion that reads
no character is a matching failure.  Returns the characters read and the
unconsumed remainder of the input. -/
def scanToken (width : Nat) (s : CStr) : Option (CStr × CStr) :=
  let s1 := s.dropWhile isWS
  let tok := (s1.takeWhile (fun c => !isWS c)).take width
  if tok = [] then none else some (tok, s1.drop tok.length)

/-- The HTTPRequest struct (src/server.c lines 36-40).  The C field widths
(16, 256, 16 bytes including the NUL) surface as the scan widths 15, 255, 15
in `parse_http_request`. -/
structure HTTPRequest where
  method : CStr
  path : CStr
  version : CStr
deriving DecidableEq

/-- Embeds `parse_http_request` (src/server.c lines 48-51):
`sscanf(request_line, "%15s %255s %15s", ...) == 3 ? 0 : -1`.
`none` models the -1 return; `some` models 0 with the struct populated. -/
def parse_http_request (request_line : CStr) : Option HTTPRequest :=
  match scanToken 15 request_line with
  | none => none
  | some (m, r1) =>
    match scanToken 255 r1 with
    | none => none
    | some (p, r2) =>
      match scanToken 15 r2 with
      | none => none
      | some (v, _) => some ⟨m, p, v⟩

/-- `strrchr(filename, ch)` restricted to what `get_mime_type` needs: the
suffix of the string starting at the LAST occurrence of the dot, or `none`
when no dot occurs. -/
def lastDotSuffix : CStr → Option CStr
  | [] => none
  | c :: cs =>
    match lastDotSuffix cs with
    | some r => some r
    | none => if c = '.' then some (c :: cs) else none

/-- Embeds `get_mime_type` (src/server.c lines 58-70): `strrchr` for the last
dot, then a chain of case-sensitive `strcmp` comparisons of the suffix
(including the dot) against the fixed extension table. -/
def get_mime_type (filename : CStr) : CStr :=
  match lastDotSuffix filename with
  | none => ("text/plain".toList)
  | some ext =>
    if ext = (".html".toList) then ("text/html".toList)
    else if ext = (".css".toList) then ("text/css".toList)
    else if ext = (".js".toList) then ("application/javascript".toList)
    else if ext = (".json".toList) then ("application/json".toList)
    else if ext = (".png".toList) then ("image/png".toList)
    else if ext = (".jpg".toList) then ("image/jpeg".toList)
    else if ext = (".jpeg".toList) then ("image/jpeg".toList)
    else ("text/plain".toList)

/-- From the words of the spec (section 4.2): the substring after the last
dot, or `none` when there is no dot.  Written independently of
`lastDotSuffix`, for comparison with the embedding of the source. -/
def extAfterLastDot (s : CStr) : Option CStr :=
  if '.' ∈ s then some ((s.reverse.takeWhile (fun c => !(c == '.'))).reverse)
  else none

/-- From the words of the spec (section 4.2): match the substring after the
last dot case-sensitively against the fixed table, with text/plain for an
unmatched or missing extension. -/
def mimeSpec (s : CStr) : CStr :=
  match extAfterLastDot s with
  | none => ("text/plain".toList)
  | some e =>
    if e = ("html".toList) then ("text/html".toList)
    else if e = ("css".toList) then ("text/css".toList)
    else if e = ("js".toList) then ("application/javascript".toList)
    else if e = ("json".toList) then ("application/json".toList)
    else if e = ("png".toList) then ("image/png".toList)
    else if e = ("jpg".toList) then ("image/jpeg".toList)
    else if e = ("jpeg".toList) then ("image/jpeg".toList)
    else ("text/plain".toList)

/-- One HTTP response as written on the socket: the status line and header
fields that the claims talk about, the Content-Length value printed into the
header, and the body bytes subsequently written. -/
structure Response where
  statusCode : Nat
  statusText : CStr
  contentType : CStr
  contentLength : Nat
  bodyWritten : CStr
deriving DecidableEq

/-- Embeds `send_response` (src/server.c lines 81-94): the header carries
`content_length` as the Content-Length value and the body write is
`write(client_sock, content, content_length)`, i.e. exactly `content_length`
bytes taken from the start of `content`. -/
def send_response (status_code : Nat) (status_text content_type content : CStr)
    (content_length : Nat) : Response :=
  { statusCode := status_code, statusText := status_text,
    contentType := content_type, contentLength := content_length,
    bodyWritten := content.take content_length }

/-- Digits of a nonnegative integer, as printed by `%d` in `snprintf`.
A fuel parameter keeps the recursion structural. -/
def natDigitsCore : Nat → Nat → CStr → CStr
  | 0, _, acc => acc
  | fuel + 1, n, acc =>
    if n < 10 then Char.ofNat (48 + n) :: acc
    else natDigitsCore fuel (n / 10) (Char.ofNat (48 + n % 10) :: acc)

/-- Decimal rendering of a Nat, as `%d` prints it for nonnegative values. -/
def natDigits (n : Nat) : CStr := natDigitsCore (n + 1) n []

/-- The HTML error body format string of `send_error` (src/server.c line 105):
`<html><body><h1>%d %s</h1><p>%s</p></body></html>`. -/
def errorBody (code : Nat) (msg : CStr) : CStr :=
  ("<html><body><h1>".toList) ++ natDigits code ++ (' ' :: msg) ++
    ("</h1><p>".toList) ++ msg ++ ("</p></body></html>".toList)

/-- Embeds `send_error` (src/server.c lines 102-109): the body is rendered by
`snprintf` into a 512-byte buffer (hence truncated to 511 characters), and
`send_response` is called with the message as status text, content type
text/html, and the exact body length. -/
def send_error (status_code : Nat) (message : CStr) : Response :=
  send_response status_code message ("text/html".toList)
    ((errorBody status_code message).take 511)
    ((errorBody status_code message).take 511).length

/-- Boolean test that `p` is a prefix of `s`, character by character. -/
def hasPrefixL : CStr → CStr → Bool
  | [], _ => true
  | _ :: _, [] => false
  | p :: ps, c :: cs => p == c && hasPrefixL ps cs

/-- Embeds a non-NULL result of `strstr(haystack, pat)`: true when `pat`
occurs as a contiguous substring of the haystack. -/
def strstrB (pat : CStr) : CStr → Bool
  | [] => hasPrefixL pat []
  | c :: cs => hasPrefixL pat (c :: cs) || strstrB pat cs

/-- The filesystem as `serve_file` observes it through `open`/`fstat`/`read`:
a map from a full path to the byte content of the file, or `none` when the
open fails. -/
abbrev FS := CStr → Option CStr

/-- Embeds the path resolution of `serve_file` (src/server.c lines 123-129):
default-document substitution for the exact path `/`, then
`snprintf(fullpath, 512, ".%s", filepath)`, which prepends a dot and
truncates to 511 characters. -/
def resolve (filepath : CStr) : CStr :=
  ('.' :: (if filepath = ("/".toList) then ("/index.html".toList) else filepath)).take 511

/-- Embeds `serve_file` (src/server.c lines 116-163): the traversal guard
first, then default-document substitution and resolution, then open (404 on
failure), then a 200 header whose Content-Length is the `fstat` size and a
body streamed from the file, with the content type taken from the resolved
path. -/
def serve_file (fs : FS) (filepath : CStr) : Response :=
  if strstrB ("..".toList) filepath then send_error 403 ("Forbidden".toList)
  else
    match fs (resolve filepath) with
    | none => send_error 404 ("Not Found".toList)
    | some content =>
      { statusCode := 200, statusText := ("OK".toList),
        contentType := get_mime_type (resolve filepath),
        contentLength := content.length, bodyWritten := content }

/-- The delimiter set `"\r\n"` of the `strtok` call in `handle_client`. -/
def isCRLF (c : Char) : Bool := c == '\r' || c == '\n'

/-- Embeds `strtok(buffer, "\r\n")` (src/server.c line 179): skip leading
delimiters; `none` (NULL) when nothing but delimiters remains, otherwise the
first maximal run of non-delimiter characters. -/
def strtokFirst (s : CStr) : Option CStr :=
  match s.dropWhile isCRLF with
  | [] => none
  | c :: cs => some ((c :: cs).takeWhile (fun x => !isCRLF x))

/-- From the words of the spec (section 4.6): the first line of the received
bytes, i.e. the prefix up to the first CR or LF terminator. -/
def firstLineOf (s : CStr) : CStr := s.takeWhile (fun c => !isCRLF c)

/-- The dispatch on a parsed line inside `handle_client` (src/server.c lines
181-192): parse failure gives 400, a GET goes to `serve_file`, any other
method gives 501. -/
def dispatchLine (fs : FS) (line : CStr) : Response :=
  match parse_http_request line with
  | some req =>
    if req.method = ("GET".toList) then serve_file fs req.path
    else send_error 501 ("Not Implemented".toList)
  | none => send_error 400 ("Bad Request".toList)

/-- Observable actions of a connection handler: writing one response, or
closing the connection. -/
inductive Event where
  | respond : Response → Event
  | close : Event
deriving DecidableEq

/-- Boolean discriminator for the close event. -/
def isClose : Event → Bool
  | Event.close => true
  | _ => false

/-- Embeds `handle_client` (src/server.c lines 170-197) as the trace of
events it performs: when `read` returned a positive count the received bytes
are tokenized by `strtok` and dispatched, writing exactly one response; in
every case the socket is closed exactly once at the end.  The NULL return of
`strtok` falls into the same 400 branch as a parse failure. -/
def handle_client (fs : FS) (bytesRead : Int) (buf : CStr) : List Event :=
  (if 0 < bytesRead then
    match strtokFirst buf with
    | some line => [Event.respond (dispatchLine fs line)]
    | none => [Event.respond (send_error 400 ("Bad Request".toList))]
  else []) ++ [Event.close]

/-- Helper for `wsTokens`: accumulate the current token in reverse. -/
def wsTokensAux : CStr → CStr → List CStr
  | [], cur => if cur = [] then [] else [cur.reverse]
  | c :: cs, cur =>
    if isWS c then
      (if cur = [] then wsTokensAux cs [] else cur.reverse :: wsTokensAux cs [])
    else wsTokensAux cs (c :: cur)

/-- The whitespace-separated tokens of a line, in the sense the claims use
the phrase: maximal runs of non-whitespace characters. -/
def wsTokens (s : CStr) : List CStr := wsTokensAux s []

/-- Whitespace run (possibly empty). -/
def allWS (s : CStr) : Prop := ∀ c ∈ s, isWS c = true

/-- A non-empty whitespace separator. -/
def wsSep (s : CStr) : Prop := s ≠ [] ∧ allWS s

/-- A non-empty token of non-whitespace characters. -/
def isTok (s : CStr) : Prop := s ≠ [] ∧ ∀ c ∈ s, isWS c = false

/-- Either the end of the input or a whitespace character: the shapes of
input at which a `%s` conversion stops reading. -/
def headWSorNil : CStr → Prop
  | [] => True
  | c :: _ => isWS c = true

instance (s : CStr) : Decidable (allWS s) := by
  unfold allWS
  infer_instance

instance (s : CStr) : Decidable (wsSep s) := by
  unfold wsSep allWS
  infer_instance

instance (s : CStr) : Decidable (isTok s) := by
  unfold isTok
  infer_instance

/-- A filesystem with a two-byte `index.html` at the document root, used to
instantiate several theorems. -/
def fsW : FS := fun q => if q = ("./index.html".toList) then some ("hi".toList) else none

/-- The 200 response `serve_file` produces on `fsW` for the root path. -/
def rW : Response :=
  { statusCode := 200, statusText := ("OK".toList),
    contentType := ("text/html".toList), contentLength := 2,
    bodyWritten := ("hi".toList) }

/-- A line with two whitespace-separated tokens whose first token is longer
than the 15-character method limit. -/
def c3line : CStr := "AAAAAAAAAAAAAAAAAAAA B".toList

/-- A line with three whitespace-separated tokens whose first token is one
character over the 15-character method limit. -/
def c8line : CStr := "AAAAAAAAAAAAAAAA B C".toList

/-- A received buffer whose first line is empty: it begins with CRLF and a
complete request line follows. -/
def c5buf : CStr := "\r\nPOST /x HTTP/1.1\r\n".toList

/-- A first whitespace-separated token of 16 characters, for instantiating
the truncation theorem. -/
def m16 : CStr := "BBBBBBBBBBBBBBBB".toList

/-! ## List helpers -/

theorem take_all_len (l : CStr) (n : Nat) (h : l.length ≤ n) : l.take n = l :=
  List.take_of_length_le h

theorem drop_append_le : ∀ (l1 l2 : CStr) (n : Nat), n ≤ l1.length →
    (l1 ++ l2).drop n = l1.drop n ++ l2
  | _, _, 0, _ => by simp
  | [], _, n + 1, h => by simp at h
  | _ :: l1, l2, n + 1, h => by
    simpa using drop_append_le l1 l2 n (by simpa using h)

theorem dropWhile_append_allWS : ∀ (w r : CStr), allWS w →
    (w ++ r).dropWhile isWS = r.dropWhile isWS
  | [], _, _ => rfl
  | c :: w, r, h => by
    have hc : isWS c = true := h c (by simp)
    have hw : allWS w := fun d hd => h d (by simp [hd])
    simp [List.dropWhile_cons, hc, dropWhile_append_allWS w r hw]

theorem dropWhile_nil_allWS (w : CStr) (h : allWS w) : w.dropWhile isWS = [] := by
  simpa using dropWhile_append_allWS w [] h

theorem takeWhile_append_stop (p : Char → Bool) :
    ∀ (a b : CStr), (∀ c ∈ a, p c = true) →
      (b = [] ∨ ∃ d ds, b = d :: ds ∧ p d = false) →
      (a ++ b).takeWhile p = a
  | [], b, _, hb => by
    rcases hb with h | ⟨d, ds, rfl, hd⟩
    · simp [h]
    · simp [List.takeWhile_cons, hd]
  | c :: a, b, ha, hb => by
    have hc : p c = true := ha c (by simp)
    have ha2 : ∀ c ∈ a, p c = true := fun d hd => ha d (by simp [hd])
    simp [List.takeWhile_cons, hc, takeWhile_append_stop p a b ha2 hb]

/-! ## Behaviour of one sscanf conversion -/

theorem headWS_of_sep (w x : CStr) (h : wsSep w) : headWSorNil (w ++ x) := by
  obtain ⟨hne, hall⟩ := h
  cases w with
  | nil => exact absurd rfl hne
  | cons c cs => exact hall c (by simp)

theorem headWS_of_allWS (w : CStr) (h : allWS w) : headWSorNil w := by
  cases w with
  | nil => trivial
  | cons c cs => exact h c (by simp)

theorem scanToken_exact (width : Nat) (w tok rest : CStr)
    (hw : allWS w) (ht : isTok tok) (hlen : tok.length ≤ width)
    (hr : headWSorNil rest) :
    scanToken width (w ++ (tok ++ rest)) = some (tok, rest) := by
  obtain ⟨hne, hnw⟩ := ht
  have h1 : (w ++ (tok ++ rest)).dropWhile isWS = tok ++ rest := by
    rw [dropWhile_append_allWS w _ hw]
    cases tok with
    | nil => exact absurd rfl hne
    | cons c cs =>
      have hc : isWS c = false := hnw c (by simp)
      simp [List.dropWhile_cons, hc]
  have h2 : (tok ++ rest).takeWhile (fun c => !isWS c) = tok := by
    apply takeWhile_append_stop
    · intro c hc; simp [hnw c hc]
    · cases rest with
      | nil => exact Or.inl rfl
      | cons d ds =>
        have hd : isWS d = true := hr
        exact Or.inr ⟨d, ds, rfl, by simp [hd]⟩
  have h3 : tok.take width = tok := take_all_len tok width hlen
  have h4 : (tok ++ rest).drop tok.length = rest := List.drop_left tok rest
  simp only [scanToken, h1, h2, h3, if_neg hne, h4]

theorem scanToken_trunc (width : Nat) (w tok rest : CStr)
    (hw : allWS w) (ht : isTok tok) (hwid : 0 < width) (hlen : width < tok.length)
    (hr : headWSorNil rest) :
    scanToken width (w ++ (tok ++ rest)) =
      some (tok.take width, tok.drop width ++ rest) := by
  obtain ⟨hne, hnw⟩ := ht
  have h1 : (w ++ (tok ++ rest)).dropWhile isWS = tok ++ rest := by
    rw [dropWhile_append_allWS w _ hw]
    cases tok with
    | nil => exact absurd rfl hne
    | cons c cs =>
      have hc : isWS c = false := hnw c (by simp)
      simp [List.dropWhile_cons, hc]
  have h2 : (tok ++ rest).takeWhile (fun c => !isWS c) = tok := by
    apply takeWhile_append_stop
    · intro c hc; simp [hnw c hc]
    · cases rest with
      | nil => exact Or.inl rfl
      | cons d ds =>
        have hd : isWS d = true := hr
        exact Or.inr ⟨d, ds, rfl, by simp [hd]⟩
  have h4 : tok.take width ≠ [] := by
    cases tok with
    | nil => exact absurd rfl hne
    | cons c cs =>
      cases width with
      | zero => omega
      | succ k => simp
  have h5 : (tok.take width).length = width := by
    rw [List.length_take]
    omega
  have h6 : (tok ++ rest).drop width = tok.drop width ++ rest :=
    drop_append_le tok rest width (Nat.le_of_lt hlen)
  simp only [scanToken, h1, h2, if_neg h4, h5, h6]

theorem scanToken_none_allWS (width : Nat) (w : CStr) (hw : allWS w) :
    scanToken width w = none := by
  simp [scanToken, dropWhile_nil_allWS w hw]

/-! ## strstr helpers -/

theorem hasPrefixL_self (p s : CStr) : hasPrefixL p (p ++ s) = true := by
  induction p with
  | nil => rfl
  | cons c cs ih => simp [hasPrefixL, ih]

theorem strstr_append (pre pat suf : CStr) :
    strstrB pat (pre ++ (pat ++ suf)) = true := by
  induction pre with
  | nil =>
    cases pat with
    | nil =>
      cases suf with
      | nil => rfl
      | cons d ds => simp [strstrB, hasPrefixL]
    | cons c cs =>
      have h := hasPrefixL_self (c :: cs) suf
      simp only [List.nil_append, List.cons_append, strstrB]
      rw [List.cons_append] at h
      simp [h]
  | cons c cs ih => simp [strstrB, ih]

/-! ## get_mime_type agrees with the spec description -/

theorem lastDotSuffix_none : ∀ (s : CStr), '.' ∉ s → lastDotSuffix s = none
  | [], _ => rfl
  | c :: cs, h => by
    have hc : ¬ c = '.' := fun hh => h (by simp [hh])
    have hcs : '.' ∉ cs := fun hh => h (by simp [hh])
    simp [lastDotSuffix, lastDotSuffix_none cs hcs, hc]

theorem lastDotSuffix_mem : ∀ (s : CStr), '.' ∈ s →
    ∃ pre t, lastDotSuffix s = some ('.' :: t) ∧ s = pre ++ '.' :: t ∧ '.' ∉ t
  | [], h => absurd h (by simp)
  | c :: cs, h => by
    by_cases hcs : '.' ∈ cs
    · obtain ⟨pre, t, h1, h2, h3⟩ := lastDotSuffix_mem cs hcs
      refine ⟨c :: pre, t, ?_, by simp [h2], h3⟩
      simp [lastDotSuffix, h1]
    · have hc : c = '.' := by
        rcases List.mem_cons.mp h with h2 | h2
        · exact h2.symm
        · exact absurd h2 hcs
      refine ⟨[], cs, ?_, by simp [hc], hcs⟩
      subst hc
      simp [lastDotSuffix, lastDotSuffix_none cs hcs]

theorem extAfter_decomp (pre t : CStr) (h3 : '.' ∉ t) :
    (((pre ++ '.' :: t).reverse.takeWhile (fun c => !(c == '.'))).reverse) = t := by
  rw [List.reverse_append, List.reverse_cons, List.append_assoc]
  have hstop : (['.'] ++ pre.reverse : CStr) = [] ∨
      ∃ d ds, (['.'] ++ pre.reverse : CStr) = d :: ds ∧ (!(d == '.')) = false :=
    Or.inr ⟨'.', pre.reverse, rfl, by simp⟩
  have hall : ∀ c ∈ t.reverse, (!(c == '.')) = true := by
    intro c hc
    have hmem : c ∈ t := List.mem_reverse.mp hc
    have hne : ¬ c = '.' := fun hh => h3 (hh ▸ hmem)
    simp [hne]
  rw [takeWhile_append_stop _ t.reverse (['.'] ++ pre.reverse) hall hstop]
  exact List.reverse_reverse t

theorem get_mime_eq_spec (s : CStr) : get_mime_type s = mimeSpec s := by
  by_cases hdot : '.' ∈ s
  · obtain ⟨pre, t, h1, h2, h3⟩ := lastDotSuffix_mem s hdot
    have hext : extAfterLastDot s = some t := by
      unfold extAfterLastDot
      rw [if_pos hdot]
      congr 1
      calc (s.reverse.takeWhile (fun c => !(c == '.'))).reverse
          = (((pre ++ '.' :: t).reverse.takeWhile (fun c => !(c == '.'))).reverse) := by rw [h2]
        _ = t := extAfter_decomp pre t h3
    have ehtml : (".html".toList : CStr) = '.' :: ("html".toList) := rfl
    have ecss : (".css".toList : CStr) = '.' :: ("css".toList) := rfl
    have ejs : (".js".toList : CStr) = '.' :: ("js".toList) := rfl
    have ejson : (".json".toList : CStr) = '.' :: ("json".toList) := rfl
    have epng : (".png".toList : CStr) = '.' :: ("png".toList) := rfl
    have ejpg : (".jpg".toList : CStr) = '.' :: ("jpg".toList) := rfl
    have ejpeg : (".jpeg".toList : CStr) = '.' :: ("jpeg".toList) := rfl
    simp only [get_mime_type, h1, mimeSpec, hext, ehtml, ecss, ejs, ejson, epng,
      ejpg, ejpeg, List.cons.injEq, true_and]
  · have h1 : lastDotSuffix s = none := lastDotSuffix_none s hdot
    simp [get_mime_type, h1, mimeSpec, extAfterLastDot, hdot]

/-! ## Response field helpers -/

theorem send_error_code (c : Nat) (m : CStr) : (send_error c m).statusCode = c := rfl

theorem send_error_ctype (c : Nat) (m : CStr) :
    (send_error c m).contentType = ("text/html".toList) := rfl

theorem send_error_body (c : Nat) (m : CStr) :
    (send_error c m).bodyWritten = (errorBody c m).take 511 := by
  show ((errorBody c m).take 511).take ((errorBody c m).take 511).length = _
  exact List.take_length _

theorem send_error_clen (c : Nat) (m : CStr) :
    (send_error c m).contentLength = (send_error c m).bodyWritten.length := by
  rw [send_error_body]
  rfl

theorem serve_file_eq_403 (fs : FS) (p : CStr) (h : strstrB ("..".toList) p = true) :
    serve_file fs p = send_error 403 ("Forbidden".toList) := by
  unfold serve_file
  rw [if_pos h]

theorem serve_file_eq_404 (fs : FS) (p : CStr) (hdot : strstrB ("..".toList) p = false)
    (hfs : fs (resolve p) = none) :
    serve_file fs p = send_error 404 ("Not Found".toList) := by
  unfold serve_file
  rw [if_neg (by rw [hdot]; simp), hfs]

theorem serve_file_eq_200 (fs : FS) (p : CStr) (hdot : strstrB ("..".toList) p = false)
    (content : CStr) (hfs : fs (resolve p) = some content) :
    serve_file fs p =
      { statusCode := 200, statusText := ("OK".toList),
        contentType := get_mime_type (resolve p),
        contentLength := content.length, bodyWritten := content } := by
  unfold serve_file
  rw [if_neg (by rw [hdot]; simp), hfs]

theorem serve_file_clen (fs : FS) (p : CStr) :
    (serve_file fs p).contentLength = (serve_file fs p).bodyWritten.length := by
  unfold serve_file
  split
  · exact send_error_clen 403 _
  · split
    · exact send_error_clen 404 _
    · rfl

theorem serve_file_status (fs : FS) (p : CStr) :
    (serve_file fs p).statusCode = 200 ∨ (serve_file fs p).statusCode = 403 ∨
      (serve_file fs p).statusCode = 404 := by
  unfold serve_file
  split
  · exact Or.inr (Or.inl rfl)
  · split
    · exact Or.inr (Or.inr rfl)
    · exact Or.inl rfl

theorem dispatchLine_clen (fs : FS) (line : CStr) :
    (dispatchLine fs line).contentLength = (dispatchLine fs line).bodyWritten.length := by
  unfold dispatchLine
  split
  · split
    · exact serve_file_clen fs _
    · exact send_error_clen 501 _
  · exact send_error_clen 400 _

theorem dispatchLine_status (fs : FS) (line : CStr) :
    (dispatchLine fs line).statusCode = 200 ∨ (dispatchLine fs line).statusCode = 400 ∨
      (dispatchLine fs line).statusCode = 403 ∨ (dispatchLine fs line).statusCode = 404 ∨
      (dispatchLine fs line).statusCode = 501 := by
  unfold dispatchLine
  split
  · split
    · rcases serve_file_status fs _ with h | h | h
      · exact Or.inl h
      · exact Or.inr (Or.inr (Or.inl h))
      · exact Or.inr (Or.inr (Or.inr (Or.inl h)))
    · exact Or.inr (Or.inr (Or.inr (Or.inr rfl)))
  · exact Or.inr (Or.inl rfl)

/-! ## Claim theorems -/

/-- Claim C1: for every request path containing the two-character substring
`..` anywhere, `serve_file` responds 403 Forbidden and never serves the file,
for every filesystem (hence regardless of whether the target exists), before
default-document substitution and before any attempt to open a file. -/
theorem serve_file_traversal_forbidden (fs : FS) (p : CStr)
    (h : strstrB ("..".toList) p = true) :
    serve_file fs p = send_error 403 ("Forbidden".toList) ∧
    (serve_file fs p).statusCode = 403 := by
  have he := serve_file_eq_403 fs p h
  exact ⟨he, by rw [he]; exact send_error_code 403 _⟩

/-- Witness for C1: a traversal path is rejected with 403 even on a
filesystem where every open succeeds. -/
theorem serve_file_traversal_forbidden_witness :
    serve_file (fun _ => some ("x".toList)) ("/../secret".toList) =
      send_error 403 ("Forbidden".toList) :=
  (serve_file_traversal_forbidden (fun _ => some ("x".toList)) ("/../secret".toList)
    (by decide)).1

/-- Claim C9: the MIME resolver is a total function of the file path that
takes the substring after the last dot, matches it case-sensitively against
the fixed table, and returns text/plain for an unmatched or missing
extension; with the four concrete evaluations of the claim. -/
theorem mime_resolver_spec :
    (∀ s : CStr, get_mime_type s = mimeSpec s) ∧
    get_mime_type ("a.html".toList) = ("text/html".toList) ∧
    get_mime_type ("a.jpeg".toList) = ("image/jpeg".toList) ∧
    get_mime_type ("a.xyz".toList) = ("text/plain".toList) ∧
    get_mime_type ("noext".toList) = ("text/plain".toList) :=
  ⟨get_mime_eq_spec, by decide, by decide, by decide, by decide⟩

/-- Counterexample to claim C3 as stated: this input line has only two
whitespace-separated tokens, yet `parse_http_request` succeeds, because the
first token is longer than the 15-character scan width and its remainder is
consumed as the second field. -/
theorem two_token_line_parses :
    (wsTokens c3line).length = 2 ∧ (parse_http_request c3line).isSome = true := by
  decide

/-- Claim C3 (amended): for every input line of three non-empty
whitespace-separated tokens M, P, V each within its field limit, parsing
succeeds and yields method=M, path=P, version=V; and for every input line
with fewer than three tokens, each present token within its field limit,
parsing fails. -/
theorem parse_request_tokens :
    (∀ w0 M w1 P w2 V w3 : CStr,
      allWS w0 → isTok M → M.length ≤ 15 → wsSep w1 → isTok P → P.length ≤ 255 →
      wsSep w2 → isTok V → V.length ≤ 15 → allWS w3 →
      parse_http_request (w0 ++ (M ++ (w1 ++ (P ++ (w2 ++ (V ++ w3)))))) =
        some ⟨M, P, V⟩) ∧
    (∀ w0 : CStr, allWS w0 → parse_http_request w0 = none) ∧
    (∀ w0 M w1 : CStr, allWS w0 → isTok M → M.length ≤ 15 → allWS w1 →
      parse_http_request (w0 ++ (M ++ w1)) = none) ∧
    (∀ w0 M w1 P w2 : CStr, allWS w0 → isTok M → M.length ≤ 15 → wsSep w1 →
      isTok P → P.length ≤ 255 → allWS w2 →
      parse_http_request (w0 ++ (M ++ (w1 ++ (P ++ w2)))) = none) := by
  refine ⟨?_, ?_, ?_, ?_⟩
  · intro w0 M w1 P w2 V w3 h0 hM hMl h1 hP hPl h2 hV hVl h3
    have s1 := scanToken_exact 15 w0 M (w1 ++ (P ++ (w2 ++ (V ++ w3)))) h0 hM hMl
      (headWS_of_sep w1 _ h1)
    have s2 := scanToken_exact 255 w1 P (w2 ++ (V ++ w3)) h1.2 hP hPl
      (headWS_of_sep w2 _ h2)
    have s3 := scanToken_exact 15 w2 V w3 h2.2 hV hVl (headWS_of_allWS w3 h3)
    simp [parse_http_request, s1, s2, s3]
  · intro w0 h0
    simp [parse_http_request, scanToken_none_allWS 15 w0 h0]
  · intro w0 M w1 h0 hM hMl h1
    have s1 := scanToken_exact 15 w0 M w1 h0 hM hMl (headWS_of_allWS w1 h1)
    simp [parse_http_request, s1, scanToken_none_allWS 255 w1 h1]
  · intro w0 M w1 P w2 h0 hM hMl h1 hP hPl h2
    have s1 := scanToken_exact 15 w0 M (w1 ++ (P ++ w2)) h0 hM hMl
      (headWS_of_sep w1 _ h1)
    have s2 := scanToken_exact 255 w1 P w2 h1.2 hP hPl (headWS_of_allWS w2 h2)
    simp [parse_http_request, s1, s2, scanToken_none_allWS 15 w2 h2]

/-- Witness for C3 (amended): a three-token line within limits parses to its
three tokens; a two-token line within limits fails. -/
theorem parse_request_tokens_witness :
    parse_http_request (([] : CStr) ++ (("GET".toList) ++ ((" ".toList) ++
        (("/a".toList) ++ ((" ".toList) ++ (("HTTP/1.1".toList) ++ ([] : CStr))))))) =
      some ⟨"GET".toList, "/a".toList, "HTTP/1.1".toList⟩ ∧
    parse_http_request (([] : CStr) ++ (("GET".toList) ++
        ((" ".toList) ++ (("/a".toList) ++ (" ".toList))))) = none :=
  ⟨parse_request_tokens.1 [] ("GET".toList) (" ".toList) ("/a".toList) (" ".toList)
      ("HTTP/1.1".toList) [] (by decide) (by decide) (by decide) (by decide)
      (by decide) (by decide) (by decide) (by decide) (by decide) (by decide),
   parse_request_tokens.2.2.2 [] ("GET".toList) (" ".toList) ("/a".toList)
      (" ".toList) (by decide) (by decide) (by decide) (by decide) (by decide)
      (by decide) (by decide)⟩

/-- Counterexample to claim C8 as stated: on this line the first token is 16
characters long; the method is truncated at the boundary as claimed, but the
parser then assigns the leftover character of the first token to path and the
second token to version, so path is not the line second token. -/
theorem truncation_shift_counterexample :
    wsTokens c8line = [("AAAAAAAAAAAAAAAA".toList), ("B".toList), ("C".toList)] ∧
    parse_http_request c8line =
      some ⟨"AAAAAAAAAAAAAAA".toList, "A".toList, "B".toList⟩ ∧
    ("A".toList : CStr) ≠ ("B".toList : CStr) := by
  decide

/-- Claim C8 (amended): a token longer than its field limit is truncated at
the limit boundary, but the scan resumes at the truncation point, so the
remainder of the oversized token, not the line next whitespace-separated
token, becomes the next field.  For a two-token line whose first token M has
more than 15 and at most 270 characters and whose second token T is within 15
characters, the parse succeeds with method = first 15 characters of M,
path = rest of M, version = T. -/
theorem parse_request_truncation (w0 M w1 T w2 : CStr)
    (h0 : allWS w0) (hM : isTok M) (hMgt : 15 < M.length) (hMle : M.length ≤ 270)
    (h1 : wsSep w1) (hT : isTok T) (hTl : T.length ≤ 15) (h2 : allWS w2) :
    parse_http_request (w0 ++ (M ++ (w1 ++ (T ++ w2)))) =
      some ⟨M.take 15, M.drop 15, T⟩ := by
  have s1 := scanToken_trunc 15 w0 M (w1 ++ (T ++ w2)) h0 hM (by omega) hMgt
    (headWS_of_sep w1 _ h1)
  have hM15 : isTok (M.drop 15) := by
    constructor
    · intro hnil
      have hlen : (M.drop 15).length = M.length - 15 := List.length_drop 15 M
      rw [hnil] at hlen
      simp at hlen
      omega
    · intro c hc
      exact hM.2 c (List.drop_subset 15 M hc)
  have s2 : scanToken 255 (M.drop 15 ++ (w1 ++ (T ++ w2))) =
      some (M.drop 15, w1 ++ (T ++ w2)) := by
    have h := scanToken_exact 255 [] (M.drop 15) (w1 ++ (T ++ w2))
      (by intro c hc; simp at hc) hM15
      (by rw [List.length_drop]; omega) (headWS_of_sep w1 _ h1)
    simpa using h
  have s3 := scanToken_exact 15 w1 T w2 h1.2 hT hTl (headWS_of_allWS w2 h2)
  simp [parse_http_request, s1, s2, s3]

/-- Witness for C8 (amended): a 16-character first token is split into a
15-character method and a 1-character path, and the second whitespace
separated token becomes the version. -/
theorem parse_request_truncation_witness :
    parse_http_request (([] : CStr) ++ (m16 ++ ((" ".toList) ++
        (("T".toList) ++ ([] : CStr))))) =
      some ⟨m16.take 15, m16.drop 15, ("T".toList)⟩ :=
  parse_request_truncation [] m16 (" ".toList) ("T".toList) [] (by decide) (by decide)
    (by decide) (by decide) (by decide) (by decide) (by decide) (by decide)

/-- Counterexample to claim C5 as stated: this received buffer has an empty
first line, whose parse would fail and yield 400, but the handler skips the
leading CR/LF terminators and parses the following line instead, producing
501 for its POST method. -/
theorem empty_first_line_skipped :
    firstLineOf c5buf = [] ∧
    parse_http_request (firstLineOf c5buf) = none ∧
    handle_client (fun _ => none) 20 c5buf =
      [Event.respond (send_error 501 ("Not Implemented".toList)), Event.close] ∧
    send_error 501 ("Not Implemented".toList) ≠ send_error 400 ("Bad Request".toList) := by
  decide

/-- Claim C5 (amended): the handler tokenizes the received bytes with CR and
LF as delimiters, skipping leading terminators.  When the buffer does not
begin with CR or LF, exactly the first line (the prefix up to the first CR or
LF) is fed to the parser and dispatched; when it does, the first non-empty
line is dispatched instead; a buffer of only terminators is treated as a
parse failure and answered with 400. -/
theorem handle_client_first_token :
    (∀ (fs : FS) (n : Int) (c : Char) (cs : CStr), 0 < n → isCRLF c = false →
      handle_client fs n (c :: cs) =
        [Event.respond (dispatchLine fs (firstLineOf (c :: cs))), Event.close]) ∧
    (∀ (fs : FS) (n : Int) (buf : CStr), 0 < n → buf.dropWhile isCRLF = [] →
      handle_client fs n buf =
        [Event.respond (send_error 400 ("Bad Request".toList)), Event.close]) ∧
    (∀ (fs : FS) (n : Int) (buf : CStr), 0 < n → buf.dropWhile isCRLF ≠ [] →
      handle_client fs n buf =
        [Event.respond (dispatchLine fs (firstLineOf (buf.dropWhile isCRLF))),
          Event.close]) := by
  refine ⟨?_, ?_, ?_⟩
  · intro fs n c cs hn hc
    have hd : (c :: cs).dropWhile isCRLF = c :: cs := by
      simp [List.dropWhile_cons, hc]
    simp [handle_client, if_pos hn, strtokFirst, hd, firstLineOf]
  · intro fs n buf hn hb
    simp [handle_client, if_pos hn, strtokFirst, hb]
  · intro fs n buf hn hb
    cases hd : buf.dropWhile isCRLF with
    | nil => exact absurd hd hb
    | cons c cs =>
      simp [handle_client, if_pos hn, strtokFirst, hd, firstLineOf]

/-- Witness for C5 (amended): a buffer starting with a non-terminator is
dispatched on exactly its first line; here the first line is a GET for a
missing file and the dispatched response is the 404 error. -/
theorem handle_client_first_token_witness :
    handle_client (fun _ => none) 17 ('G' :: ("ET /a HTTP/1.1\r\nX".toList)) =
      [Event.respond (dispatchLine (fun _ => none)
        (firstLineOf ('G' :: ("ET /a HTTP/1.1\r\nX".toList)))), Event.close] ∧
    dispatchLine (fun _ => none) (firstLineOf ('G' :: ("ET /a HTTP/1.1\r\nX".toList))) =
      send_error 404 ("Not Found".toList) :=
  ⟨handle_client_first_token.1 (fun _ => none) 17 'G' ("ET /a HTTP/1.1\r\nX".toList)
      (by decide) (by decide),
   by decide⟩

/-- Claim C6: on every branch the handler closes the connection exactly once,
at the end of its trace; and when the initial read returns zero or negative
bytes it transitions directly to Closed without writing anything. -/
theorem connection_closed_once :
    (∀ (fs : FS) (n : Int) (buf : CStr),
      ∃ es, handle_client fs n buf = es ++ [Event.close] ∧ es.countP isClose = 0) ∧
    (∀ (fs : FS) (n : Int) (buf : CStr), n ≤ 0 →
      handle_client fs n buf = [Event.close]) := by
  constructor
  · intro fs n buf
    by_cases hn : 0 < n
    · cases h : strtokFirst buf with
      | none =>
        refine ⟨[Event.respond (send_error 400 ("Bad Request".toList))], ?_, ?_⟩
        · simp [handle_client, if_pos hn, h]
        · simp [List.countP_cons, isClose]
      | some line =>
        refine ⟨[Event.respond (dispatchLine fs line)], ?_, ?_⟩
        · simp [handle_client, if_pos hn, h]
        · simp [List.countP_cons, isClose]
    · exact ⟨[], by simp [handle_client, if_neg hn], by simp⟩
  · intro fs n buf hn
    have h : ¬ 0 < n := by omega
    simp [handle_client, if_neg h]

/-- Witness for C6: a connection whose read failed is closed with no response
written. -/
theorem connection_closed_once_witness :
    handle_client (fun _ => none) (-1) [] = [Event.close] :=
  connection_closed_once.2 (fun _ => none) (-1) [] (by decide)

/-- Claim C7: every response in any handler trace has status 200, 400, 403,
404 or 501 (in particular no 500 exists); and every successfully parsed
request whose method is not exactly GET is answered 501. -/
theorem response_status_codes :
    (∀ (fs : FS) (n : Int) (buf : CStr) (r : Response),
      Event.respond r ∈ handle_client fs n buf →
      r.statusCode = 200 ∨ r.statusCode = 400 ∨ r.statusCode = 403 ∨
        r.statusCode = 404 ∨ r.statusCode = 501) ∧
    (∀ (fs : FS) (n : Int) (buf line : CStr) (req : HTTPRequest), 0 < n →
      strtokFirst buf = some line → parse_http_request line = some req →
      req.method ≠ ("GET".toList) →
      handle_client fs n buf =
        [Event.respond (send_error 501 ("Not Implemented".toList)), Event.close]) := by
  constructor
  · intro fs n buf r hr
    by_cases hn : 0 < n
    · cases h : strtokFirst buf with
      | none =>
        simp [handle_client, if_pos hn, h] at hr
        rw [hr]
        exact Or.inr (Or.inl (send_error_code 400 _))
      | some line =>
        simp [handle_client, if_pos hn, h] at hr
        rw [hr]
        exact dispatchLine_status fs line
    · simp [handle_client, if_neg hn] at hr
  · intro fs n buf line req hn hline hparse hmethod
    have hm : ¬ req.method = (['G', 'E', 'T'] : CStr) := hmethod
    simp [handle_client, if_pos hn, hline, dispatchLine, hparse, hm]

/-- Witness for C7: a POST request is answered with 501 Not Implemented. -/
theorem response_status_codes_witness :
    handle_client (fun _ => none) 16 ("POST /x HTTP/1.1".toList) =
      [Event.respond (send_error 501 ("Not Implemented".toList)), Event.close] :=
  response_status_codes.2 (fun _ => none) 16 ("POST /x HTTP/1.1".toList)
    ("POST /x HTTP/1.1".toList) ⟨"POST".toList, "/x".toList, "HTTP/1.1".toList⟩
    (by decide) (by decide) (by decide) (by decide)

/-- Claim C2: for every response the handler writes, on any input and any
filesystem, the Content-Length value in the header equals the number of body
bytes subsequently written, for synthesized error pages and served files
alike. -/
theorem content_length_exact (fs : FS) (n : Int) (buf : CStr) (r : Response)
    (hr : Event.respond r ∈ handle_client fs n buf) :
    r.contentLength = r.bodyWritten.length := by
  by_cases hn : 0 < n
  · cases h : strtokFirst buf with
    | none =>
      simp [handle_client, if_pos hn, h] at hr
      rw [hr]
      exact send_error_clen 400 _
    | some line =>
      simp [handle_client, if_pos hn, h] at hr
      rw [hr]
      exact dispatchLine_clen fs line
  · simp [handle_client, if_neg hn] at hr

/-- Witness for C2: the 200 response serving the two-byte index.html carries
Content-Length 2 and a two-byte body. -/
theorem content_length_exact_witness :
    Event.respond rW ∈ handle_client fsW 14 ("GET / HTTP/1.1".toList) ∧
    rW.contentLength = rW.bodyWritten.length :=
  ⟨by decide, content_length_exact fsW 14 ("GET / HTTP/1.1".toList) rW (by decide)⟩

/-- Claim C4: for a GET request path free of `..` (and within the 255-byte
parser limit), the resolved path is the dot-prefixed path with the default
document substituted for the exact path `/`; an unopenable resolved file
yields 404; an openable one yields 200 with Content-Length equal to the file
byte size, a body equal to the file bytes, and the content type taken from
the resolved path. -/
theorem serve_file_get_pipeline (fs : FS) (p : CStr)
    (hdot : strstrB ("..".toList) p = false) (hlen : p.length ≤ 255) :
    resolve p = '.' :: (if p = ("/".toList) then ("/index.html".toList) else p) ∧
    (fs (resolve p) = none → serve_file fs p = send_error 404 ("Not Found".toList)) ∧
    (∀ content : CStr, fs (resolve p) = some content →
      serve_file fs p =
        { statusCode := 200, statusText := ("OK".toList),
          contentType := get_mime_type (resolve p),
          contentLength := content.length, bodyWritten := content }) := by
  refine ⟨?_, ?_, ?_⟩
  · unfold resolve
    apply take_all_len
    by_cases hp : p = ("/".toList)
    · rw [if_pos hp]
      decide
    · rw [if_neg hp]
      simp
      omega
  · intro hfs
    exact serve_file_eq_404 fs p hdot hfs
  · intro content hfs
    exact serve_file_eq_200 fs p hdot content hfs

/-- Witness for C4: requesting the root path on a filesystem holding a
two-byte `./index.html` yields 200 text/html with Content-Length 2 and the
file bytes as body. -/
theorem serve_file_get_pipeline_witness :
    serve_file fsW ("/".toList) =
      { statusCode := 200, statusText := ("OK".toList),
        contentType := get_mime_type (resolve ("/".toList)),
        contentLength := ("hi".toList : CStr).length,
        bodyWritten := ("hi".toList) } ∧
    serve_file fsW ("/".toList) = rW :=
  ⟨(serve_file_get_pipeline fsW ("/".toList) (by decide) (by decide)).2.2
      ("hi".toList) (by decide),
   by decide⟩

/-- Claim C10: every synthesized error response has content type text/html
and an HTML body embedding the status code digits and the message string
verbatim (as contiguous substrings, unescaped), provided the rendered body
fits the 511-character buffer, as it does for all four messages the server
uses; and a request for a missing file (no `..`, unopenable target) yields a
404 whose body mentions 404 and Not Found. -/
theorem error_pages_html (code : Nat) (msg : CStr)
    (hlen : (errorBody code msg).length ≤ 511) :
    (send_error code msg).contentType = ("text/html".toList) ∧
    strstrB (natDigits code) (send_error code msg).bodyWritten = true ∧
    strstrB msg (send_error code msg).bodyWritten = true ∧
    (∀ (fs : FS) (p : CStr), strstrB ("..".toList) p = false →
      fs (resolve p) = none →
      (serve_file fs p).statusCode = 404 ∧
      strstrB ("404".toList) (serve_file fs p).bodyWritten = true ∧
      strstrB ("Not Found".toList) (serve_file fs p).bodyWritten = true) := by
  have hbw : (send_error code msg).bodyWritten = errorBody code msg := by
    rw [send_error_body, take_all_len _ _ hlen]
  refine ⟨send_error_ctype code msg, ?_, ?_, ?_⟩
  · rw [hbw]
    have hshape : errorBody code msg =
        ("<html><body><h1>".toList) ++ (natDigits code ++ ((' ' :: msg) ++
          (("</h1><p>".toList) ++ (msg ++ ("</p></body></html>".toList))))) := by
      simp [errorBody]
    rw [hshape]
    exact strstr_append _ (natDigits code) _
  · rw [hbw]
    have hshape : errorBody code msg =
        (("<html><body><h1>".toList) ++ natDigits code ++ [' ']) ++
          (msg ++ (("</h1><p>".toList) ++ (msg ++ ("</p></body></html>".toList)))) := by
      simp [errorBody]
    rw [hshape]
    exact strstr_append _ msg _
  · intro fs p hdot hfs
    have h404 : serve_file fs p = send_error 404 ("Not Found".toList) :=
      serve_file_eq_404 fs p hdot hfs
    refine ⟨by rw [h404]; exact send_error_code 404 _, ?_, ?_⟩
    · rw [h404]
      decide
    · rw [h404]
      decide

/-- Witness for C10: the concrete 400 error page is text/html and embeds the
digits 400 and the message, and a request for a missing file on an empty
filesystem yields a 404 page mentioning 404 and Not Found. -/
theorem error_pages_html_witness :
    (send_error 400 ("Bad Request".toList)).contentType = ("text/html".toList) ∧
    strstrB (natDigits 400) (send_error 400 ("Bad Request".toList)).bodyWritten = true ∧
    strstrB ("Bad Request".toList) (send_error 400 ("Bad Request".toList)).bodyWritten = true ∧
    (serve_file (fun _ => none) ("/nope".toList)).statusCode = 404 ∧
    strstrB ("404".toList) (serve_file (fun _ => none) ("/nope".toList)).bodyWritten = true ∧
    strstrB ("Not Found".toList) (serve_file (fun _ => none) ("/nope".toList)).bodyWritten = true := by
  have h := error_pages_html 400 ("Bad Request".toList) (by decide)
  have h4 := h.2.2.2 (fun _ => none) ("/nope".toList) (by decide) rfl
  exact ⟨h.1, h.2.1, h.2.2.1, h4.1, h4.2.1, h4.2.2⟩
